import Mathlib

/- Shallow embedding of the outcome-determination and settlement logic of the
crypto-casino server: the game handlers in `src/server/games.ts`
(`setupGameRoutes`), the wallet/admin handlers in `src/server/routes.ts`
(`registerRoutes`), and the two storage implementations
(`src/server/storage.ts` `MemStorage`, `src/server/mongodb-storage.ts`
`MongoDBStorage`).

Modelling conventions:
* Money amounts are exact rationals.  The source stores balances and amounts
  as decimal strings produced by `toFixed(2)` and reads them back with
  `parseFloat`; for cent-valued amounts this round-trip is exact, and the
  claims under study are about the computed amounts, so the embedding keeps
  the exact values.
* `Math.random`-driven draws (slot reels, the roulette wheel, deck shuffles)
  are nondeterministic: the drawn values are parameters of the embedded
  handlers, listed in the order the source consumes them.  A shuffled deck is
  represented as the list of cards in pop order (head = the card the next
  `deck.pop()` returns).
* Fallible handler paths (HTTP 4xx responses and JS exceptions that surface
  as HTTP 500, e.g. reading a property of `undefined` after popping an empty
  deck) are `Except String` errors.
-/

/-- A playing card as in the source: a record of two strings
(`suit`, `value`).  The masked card sent to the client is `⟨"?", "?"⟩`. -/
structure Card where
  suit : String
  value : String
  deriving DecidableEq, Repr

/-- The masked placeholder card the handlers put in responses. -/
def maskCard : Card := ⟨"?", "?"⟩

/-- Per-card contribution of the first loop of `calculateHandValue`
(routes file, both copies): an ace counts 11 (and is also tallied in the ace
counter), J/Q/K count 10, any other value goes through `parseInt`, written
out here as its value table over the deck alphabet
`"2" ... "10"` (a non-numeric junk value would give JS `NaN`, with which
every comparison is false; the embedding coarsens it to 0, and no claim
depends on junk card values). -/
def cardPoints (v : String) : Nat :=
  if v = "A" then 11
  else if v = "J" ∨ v = "Q" ∨ v = "K" then 10
  else if v = "2" then 2
  else if v = "3" then 3
  else if v = "4" then 4
  else if v = "5" then 5
  else if v = "6" then 6
  else if v = "7" then 7
  else if v = "8" then 8
  else if v = "9" then 9
  else if v = "10" then 10
  else 0

/-- Sum of card points with every ace still counted at 11. -/
def handRawValue (hand : List Card) : Nat :=
  (hand.map (fun c => cardPoints c.value)).sum

/-- Number of aces tallied by the first loop of `calculateHandValue`. -/
def handAces (hand : List Card) : Nat :=
  (hand.filter (fun c => c.value = "A")).length

/-- The ace-demotion loop of `calculateHandValue`:
`while (value > 21 && aces > 0) { value -= 10; aces--; }`.
Returns the final `(value, aces)` pair; structural recursion on the ace
counter mirrors the loop, which stops when it hits 0. -/
def adjustForAces : Nat → Nat → Nat × Nat
  | value, 0 => (value, 0)
  | value, a + 1 =>
    if 21 < value then adjustForAces (value - 10) a else (value, a + 1)

/-- The `calculateHandValue` helper defined (identically) inside both the
blackjack `deal` and `action` handlers. -/
def calculateHandValue (hand : List Card) : Nat :=
  (adjustForAces (handRawValue hand) (handAces hand)).1

/-- Aces still counted at 11 (demotable) when the demotion loop exits. -/
def remainingAces (hand : List Card) : Nat :=
  (adjustForAces (handRawValue hand) (handAces hand)).2

/-- The slot symbol alphabet of the handler
(`["🍒","🍊","🍋","🍇","🍉","7️⃣","💰","⭐"]`); `seven` is `"7️⃣"`,
`money` is `"💰"`, `star` is `"⭐"`. -/
inductive SlotSymbol
  | cherry
  | orange
  | lemon
  | grape
  | melon
  | seven
  | money
  | star
  deriving DecidableEq, Repr, Fintype

/-- Game configuration entity (`Game` row): type, house edge, bet bounds,
active flag. -/
structure Game where
  id : Nat
  gameType : String
  houseEdge : ℚ
  minBet : ℚ
  maxBet : ℚ
  isActive : Bool
  deriving DecidableEq, Repr

/-- Response/settlement data of one slots play. -/
structure SlotsResult where
  reels : SlotSymbol × SlotSymbol × SlotSymbol
  bet : ℚ
  win : ℚ
  multiplier : ℚ
  balance : ℚ
  deriving DecidableEq, Repr

/-- The `POST /api/games/slots/play` handler.  Inputs: the authenticated
user's balance, the looked-up game (none = not found), the parsed bet, and
the three drawn reels.  Validation order follows the source: zod `positive()`
on the bet, game present and active, game type, bet limits, balance.  The
multiplier if-chain, house-edge scaling, `winAmount` and `netWin` are copied
from the source; the returned balance is the post-settlement balance
(`MemStorage.createGameSession` applies `netWin`). -/
def slotsPlay (balance : ℚ) (game? : Option Game) (bet : ℚ)
    (r0 r1 r2 : SlotSymbol) : Except String SlotsResult :=
  if bet ≤ 0 then .error "validation: bet must be positive"
  else
    match game? with
    | none => .error "Game not found or inactive"
    | some game =>
      if !game.isActive then .error "Game not found or inactive"
      else if game.gameType ≠ "slots" then .error "This endpoint is for slots only"
      else if bet < game.minBet ∨ game.maxBet < bet then .error "Bet out of limits"
      else if balance < bet then .error "Insufficient balance"
      else
        let rawMultiplier : ℚ :=
          if r0 = r1 ∧ r1 = r2 then
            if r0 = SlotSymbol.seven then 100
            else if r0 = SlotSymbol.money then 50
            else if r0 = SlotSymbol.star then 25
            else 10
          else if r0 = r1 ∨ r1 = r2 ∨ r0 = r2 then 2
          else 0
        let houseEdgeMultiplier : ℚ := (100 - game.houseEdge) / 100
        let multiplier := rawMultiplier * houseEdgeMultiplier
        let winAmount := bet * multiplier
        let netWin := winAmount - bet
        .ok ⟨(r0, r1, r2), bet, netWin, multiplier, balance + netWin⟩

/-- Modelled from the spec payout table in §4.2: the raw multiplier as the
spec words it — 100 for three top symbols, 50 for three high symbols, 25 for
three mid symbols, 10 for any other three of a kind, 2 for exactly two equal
symbols, 0 otherwise. -/
def specSlotsMultiplier (r0 r1 r2 : SlotSymbol) : ℚ :=
  if r0 = r1 ∧ r1 = r2 then
    if r0 = SlotSymbol.seven then 100
    else if r0 = SlotSymbol.money then 50
    else if r0 = SlotSymbol.star then 25
    else 10
  else if (r0 = r1 ∧ r1 ≠ r2) ∨ (r1 = r2 ∧ r0 ≠ r1) ∨ (r0 = r2 ∧ r0 ≠ r1) then 2
  else 0

/-- Response/settlement data of one roulette play. -/
structure RouletteResult where
  result : Nat
  isRed : Bool
  bet : ℚ
  win : ℚ
  multiplier : ℚ
  balance : ℚ
  deriving DecidableEq, Repr

/-- The fixed red-number table of the roulette handler. -/
def redNumbers : List Nat :=
  [1, 3, 5, 7, 9, 12, 14, 16, 18, 19, 21, 23, 25, 27, 30, 32, 34, 36]

/-- The win-determination if-chain of the roulette handler, returning the
`win` flag and the raw multiplier it assigns (0 when no branch matches).
`betNumber` is the optional parsed number bet (`none` = absent). -/
def rouletteOutcome (betType : String) (betNumber : Option Nat) (result : Nat) :
    Bool × ℚ :=
  if betType = "red" ∧ result ∈ redNumbers then (true, 2)
  else if betType = "black" ∧ result ∉ redNumbers ∧ result ≠ 0 then (true, 2)
  else if betType = "even" ∧ result % 2 = 0 ∧ result ≠ 0 then (true, 2)
  else if betType = "odd" ∧ result % 2 = 1 then (true, 2)
  else if betType = "high" ∧ 19 ≤ result ∧ result ≤ 36 then (true, 2)
  else if betType = "low" ∧ 1 ≤ result ∧ result ≤ 18 then (true, 2)
  else if betType = "number" ∧ betNumber = some result then (true, 36)
  else (false, 0)

/-- The `POST /api/games/roulette/play` handler.  Inputs mirror the source:
balance, looked-up game, parsed bet, bet type (zod enum), optional bet
number (zod `min(0).max(36).optional()`), and the drawn wheel result.
After validation the handler scales the raw multiplier by the house edge,
sets `winAmount = win ? bet * multiplier : 0`, `netWin = winAmount - bet`,
and settles through `createGameSession`. -/
def roulettePlay (balance : ℚ) (game? : Option Game) (bet : ℚ)
    (betType : String) (betNumber : Option Nat) (result : Nat) :
    Except String RouletteResult :=
  if bet ≤ 0 then .error "validation: bet must be positive"
  else if betType ∉ ["red", "black", "even", "odd", "high", "low", "number"] then
    .error "validation: invalid bet type"
  else if ∃ n ∈ betNumber, 36 < n then .error "validation: betNumber out of range"
  else
    match game? with
    | none => .error "Game not found or inactive"
    | some game =>
      if !game.isActive then .error "Game not found or inactive"
      else if game.gameType ≠ "roulette" then .error "This endpoint is for roulette only"
      else if bet < game.minBet ∨ game.maxBet < bet then .error "Bet out of limits"
      else if balance < bet then .error "Insufficient balance"
      else if betType = "number" ∧ betNumber = none then
        .error "Number bet requires betNumber"
      else
        let outcome := rouletteOutcome betType betNumber result
        let houseEdgeMultiplier : ℚ := (100 - game.houseEdge) / 100
        let multiplier := outcome.2 * houseEdgeMultiplier
        let winAmount := if outcome.1 then bet * multiplier else 0
        let netWin := winAmount - bet
        .ok ⟨result, decide (result ∈ redNumbers), bet, netWin,
          if outcome.1 then multiplier else 0, balance + netWin⟩

/-- The default slots game seeded by `MemStorage` (house edge 50, bets 1 to
1000, active). -/
def slotsGame : Game := ⟨1, "slots", 50, 1, 1000, true⟩

/-- The default roulette game seeded by `MemStorage` (house edge 50, bets 1
to 500, active). -/
def rouletteGame : Game := ⟨2, "roulette", 50, 1, 500, true⟩

/-- The default blackjack game seeded by `MemStorage` (house edge 50, bets 5
to 1000, active). -/
def blackjackGame : Game := ⟨3, "blackjack", 50, 5, 1000, true⟩

/-- The dealer draw loop of the blackjack action handler:
`while (dealerValue < 17) dealerHand.push(deck.pop())`.  Popping an empty
deck models the JS undefined-card crash (HTTP 500).  Returns the final
dealer hand and the remaining deck. -/
def dealerDraw : List Card → List Card → Except String (List Card × List Card)
  | hand, [] =>
    if calculateHandValue hand < 17 then .error "TypeError: popped an empty deck"
    else .ok (hand, [])
  | hand, c :: rest =>
    if calculateHandValue hand < 17 then dealerDraw (hand ++ [c]) rest
    else .ok (hand, c :: rest)

/-- Terminal comparison of the dealer-turn phase: dealer bust pays `+bet`,
dealer strictly higher pays `-bet`, player strictly higher pays `+bet`,
equal totals push.  Returns `(status, raw netWin)`. -/
def bjCompare (bet : ℚ) (playerValue dealerValue : Nat) : String × ℚ :=
  if 21 < dealerValue then ("dealer_bust", bet)
  else if playerValue < dealerValue then ("dealer_wins", -bet)
  else if dealerValue < playerValue then ("player_wins", bet)
  else ("push", 0)

/-- House-edge scaling at settlement in the action handler:
`if (netWin > 0 && game) netWin *= (100 - houseEdge) / 100`. -/
def bjScale : Option Game → ℚ → ℚ
  | some game, netWin =>
    if 0 < netWin then netWin * ((100 - game.houseEdge) / 100) else netWin
  | none, netWin => netWin

/-- Response/settlement data of one blackjack action request.
`recordedWin` is the `win` written into the GameSession (`none` while the
round is still in progress); `balance` is the post-settlement balance. -/
structure ActionResult where
  playerHand : List Card
  dealerHand : List Card
  dealerHandShown : List Card
  playerValue : Nat
  dealerValue : Nat
  bet : ℚ
  status : String
  recordedWin : Option ℚ
  balance : ℚ
  deriving DecidableEq, Repr

/-- Build the action response and, on a terminal status, settle: scale the
raw net through `bjScale`, record it, and apply it to the balance
(`MemStorage.createGameSession`).  The response masks the dealer hand and
reports only the first dealer card's value while the round is in
progress. -/
def bjSettle (balance : ℚ) (game? : Option Game) (bet : ℚ)
    (playerHand dealerHand : List Card) (status : String) (rawNet : ℚ) :
    ActionResult :=
  if status ≠ "in_progress" then
    let netWin := bjScale game? rawNet
    ⟨playerHand, dealerHand, dealerHand, calculateHandValue playerHand,
      calculateHandValue dealerHand, bet, status, some netWin, balance + netWin⟩
  else
    ⟨playerHand, dealerHand, dealerHand.take 1 ++ [maskCard],
      calculateHandValue playerHand, calculateHandValue (dealerHand.take 1),
      bet, status, none, balance⟩

/-- Play out the dealer turn and settle the comparison outcome. -/
def bjDealerTurn (balance : ℚ) (game? : Option Game) (bet : ℚ)
    (playerHand dealerHand deck : List Card) : Except String ActionResult :=
  match dealerDraw dealerHand deck with
  | .error e => .error e
  | .ok (dealerHand', _) =>
    let outcome := bjCompare bet (calculateHandValue playerHand)
      (calculateHandValue dealerHand')
    .ok (bjSettle balance game? bet playerHand dealerHand' outcome.1 outcome.2)

/-- The `POST /api/games/blackjack/action` handler.  Inputs: the user's
balance, the game looked up at settlement time (the source applies edge
scaling only `if (netWin > 0 && game)`), the action (zod enum), the
client-submitted hands and bet, and `freshDeck`: the server-side reshuffle
sliced to the client deck's length, in pop order.  The dealer's hole card is
rebuilt by two pops — `suit` from the first popped card, `value` from the
second — exactly as in the source.  An empty client dealer hand makes every
path crash in `calculateHandValue` (HTTP 500), modelled as an error. -/
def blackjackAction (balance : ℚ) (game? : Option Game) (action : String)
    (gsPlayerHand gsDealerHand freshDeck : List Card) (gsBet : ℚ) :
    Except String ActionResult :=
  if action ∉ (["hit", "stand", "double"] : List String) then
    .error "validation: invalid action"
  else
    match gsDealerHand, freshDeck with
    | d0 :: _, a :: b :: deck0 =>
      let dealerHand := [d0, ⟨a.suit, b.value⟩]
      if action = "hit" then
        match deck0 with
        | [] => .error "TypeError: popped an empty deck"
        | c :: _ =>
          let playerHand := gsPlayerHand ++ [c]
          if 21 < calculateHandValue playerHand then
            .ok (bjSettle balance game? gsBet playerHand dealerHand
              "player_bust" (-gsBet))
          else
            .ok (bjSettle balance game? gsBet playerHand dealerHand
              "in_progress" 0)
      else if action = "double" then
        if balance < gsBet then .error "Insufficient balance to double"
        else
          match deck0 with
          | [] => .error "TypeError: popped an empty deck"
          | c :: deck1 =>
            let bet := gsBet * 2
            let playerHand := gsPlayerHand ++ [c]
            if 21 < calculateHandValue playerHand then
              .ok (bjSettle balance game? bet playerHand dealerHand
                "player_bust" (-bet))
            else
              bjDealerTurn balance game? bet playerHand dealerHand deck1
      else
        bjDealerTurn balance game? gsBet gsPlayerHand dealerHand deck0
    | _, _ => .error "TypeError: read property of undefined"

/-- Response/settlement data of one blackjack deal request. -/
structure DealResult where
  playerHand : List Card
  dealerHand : List Card
  dealerHandShown : List Card
  playerValue : Nat
  dealerValueShown : Nat
  bet : ℚ
  status : String
  canHit : Bool
  canStand : Bool
  canDouble : Bool
  recordedWin : Option ℚ
  balance : ℚ
  deriving DecidableEq, Repr

/-- The `POST /api/games/blackjack/deal` handler.  Inputs: balance,
looked-up game, parsed bet, and the shuffled deck in pop order.  Deals two
cards each, resolves naturals immediately (player blackjack records
`bet * 1.5`, dealer blackjack `-bet`, both a push at `0` — no house-edge
scaling on this path), and always masks the dealer's second card in the
response, reporting `dealerValue` from the visible card only. -/
def blackjackDeal (balance : ℚ) (game? : Option Game) (bet : ℚ)
    (deck : List Card) : Except String DealResult :=
  if bet ≤ 0 then .error "validation: bet must be positive"
  else
    match game? with
    | none => .error "Game not found or inactive"
    | some game =>
      if !game.isActive then .error "Game not found or inactive"
      else if game.gameType ≠ "blackjack" then
        .error "This endpoint is for blackjack only"
      else if bet < game.minBet ∨ game.maxBet < bet then .error "Bet out of limits"
      else if balance < bet then .error "Insufficient balance"
      else
        match deck with
        | p1 :: p2 :: d1 :: d2 :: _ =>
          let playerHand := [p1, p2]
          let dealerHand := [d1, d2]
          let playerValue := calculateHandValue playerHand
          let dealerValue := calculateHandValue dealerHand
          let playerHasBlackjack := playerValue = 21 ∧ playerHand.length = 2
          let dealerHasBlackjack := dealerValue = 21 ∧ dealerHand.length = 2
          let resolved : String × ℚ :=
            if playerHasBlackjack ∨ dealerHasBlackjack then
              if playerHasBlackjack ∧ dealerHasBlackjack then ("push", 0)
              else if playerHasBlackjack then ("player_blackjack", bet * 1.5)
              else ("dealer_blackjack", -bet)
            else ("in_progress", 0)
          let gameStatus := resolved.1
          let netWin := resolved.2
          let settled := gameStatus ≠ "in_progress"
          .ok ⟨playerHand, dealerHand, [d1, maskCard], playerValue,
            calculateHandValue [d1], bet, gameStatus,
            gameStatus = "in_progress", gameStatus = "in_progress",
            gameStatus = "in_progress" ∧ playerHand.length = 2,
            if settled then some netWin else none,
            if settled then balance + netWin else balance⟩
        | _ => .error "TypeError: popped an empty deck"

/-- A Transaction row: signed amount, type
(deposit / withdrawal / win / loss), status
(pending / completed / rejected), optional game link. -/
structure Txn where
  id : Nat
  userId : Nat
  amount : ℚ
  txnType : String
  status : String
  gameId : Option Nat
  deriving DecidableEq, Repr

/-- A GameSession row. -/
structure Sess where
  id : Nat
  userId : Nat
  gameId : Nat
  bet : ℚ
  win : ℚ
  deriving DecidableEq, Repr

/-- The session payload passed to `createGameSession`. -/
structure InsertSess where
  userId : Nat
  gameId : Nat
  bet : ℚ
  win : ℚ
  deriving DecidableEq, Repr

/-- The `MemStorage` maps: user balances, transactions and game sessions
keyed by id, plus the id counters.  The same state type also hosts the
MongoDB collections for `MongoDBStorage` methods. -/
structure MemStore where
  users : Nat → Option ℚ
  txns : Nat → Option Txn
  sessions : Nat → Option Sess
  currentTransactionId : Nat
  currentGameSessionId : Nat

/-- `MemStorage.updateUserBalance`: read the balance, add the (signed)
amount, write it back; throws if the user does not exist. -/
def memUpdateUserBalance (st : MemStore) (userId : Nat) (amount : ℚ) :
    Except String MemStore :=
  match st.users userId with
  | none => .error "User not found"
  | some balance =>
    .ok { st with
      users := fun u => if u = userId then some (balance + amount) else st.users u }

/-- `MemStorage.createTransaction`: assign the next id and insert. -/
def memCreateTransaction (st : MemStore) (userId : Nat) (amount : ℚ)
    (txnType status : String) (gameId : Option Nat) : MemStore × Txn :=
  let id := st.currentTransactionId
  let txn : Txn := ⟨id, userId, amount, txnType, status, gameId⟩
  ({ st with
      txns := fun i => if i = id then some txn else st.txns i,
      currentTransactionId := id + 1 }, txn)

/-- `MemStorage.updateTransactionStatus`: look up, overwrite the status. -/
def memUpdateTransactionStatus (st : MemStore) (id : Nat) (status : String) :
    Except String (MemStore × Txn) :=
  match st.txns id with
  | none => .error "Transaction not found"
  | some txn =>
    let updated := { txn with status := status }
    .ok ({ st with txns := fun i => if i = id then some updated else st.txns i },
      updated)

/-- `MemStorage.createGameSession` — the Settlement Coordinator: insert the
session, apply the win to the user balance, and create the derived
completed transaction (`win` if the net is positive, else `loss`), linked
to the game. -/
def memCreateGameSession (st : MemStore) (s : InsertSess) :
    Except String (MemStore × Sess) :=
  let id := st.currentGameSessionId
  let sess : Sess := ⟨id, s.userId, s.gameId, s.bet, s.win⟩
  let st1 := { st with
    sessions := fun i => if i = id then some sess else st.sessions i,
    currentGameSessionId := id + 1 }
  match memUpdateUserBalance st1 s.userId s.win with
  | .error e => .error e
  | .ok st2 =>
    let txnType := if 0 < s.win then "win" else "loss"
    let st3 := (memCreateTransaction st2 s.userId s.win txnType "completed"
      (some s.gameId)).1
    .ok (st3, sess)

/-- `MongoDBStorage.createGameSession`: inserts the session document and
returns — it neither touches the user's balance nor creates any derived
transaction. -/
def mongoCreateGameSession (st : MemStore) (s : InsertSess) : MemStore × Sess :=
  let id := st.currentGameSessionId
  let sess : Sess := ⟨id, s.userId, s.gameId, s.bet, s.win⟩
  ({ st with
      sessions := fun i => if i = id then some sess else st.sessions i,
      currentGameSessionId := id + 1 }, sess)

/-- The `POST /api/transactions/withdraw` handler: insufficient balance is
rejected; otherwise a `pending` `withdrawal` transaction is created with the
negated amount, and the balance is debited immediately. -/
def withdrawHandler (st : MemStore) (userId : Nat) (amount : ℚ) :
    Except String (MemStore × Txn) :=
  match st.users userId with
  | none => .error "Not authenticated"
  | some balance =>
    if balance < amount then .error "Insufficient balance"
    else
      let created := memCreateTransaction st userId (-amount) "withdrawal"
        "pending" none
      match memUpdateUserBalance created.1 userId (-amount) with
      | .error e => .error e
      | .ok st2 => .ok (st2, created.2)

/-- The `POST /api/admin/transactions/:id/approve` handler: flip the status
to `completed`; the balance is never touched. -/
def approveHandler (st : MemStore) (txnId : Nat) : Except String (MemStore × Txn) :=
  memUpdateTransactionStatus st txnId "completed"

/-- The `POST /api/admin/transactions/:id/reject` handler: 404 on a missing
transaction; refund `abs(amount)` only when the transaction is a `pending`
`withdrawal`; then flip the status to `rejected`. -/
def rejectHandler (st : MemStore) (txnId : Nat) : Except String (MemStore × Txn) :=
  match st.txns txnId with
  | none => .error "Transaction not found"
  | some txn =>
    let refunded : Except String MemStore :=
      if txn.txnType = "withdrawal" ∧ txn.status = "pending" then
        memUpdateUserBalance st txn.userId |txn.amount|
      else .ok st
    match refunded with
    | .error e => .error e
    | .ok st1 => memUpdateTransactionStatus st1 txnId "rejected"

/-- A concrete one-user store (user 1 with balance 100, no transactions or
sessions, counters at 1) used by the concrete-input theorems. -/
def oneUserStore : MemStore :=
  ⟨fun u => if u = 1 then some 100 else none, fun _ => none, fun _ => none, 1, 1⟩

/-- A concrete settled-round payload: user 1, the blackjack game (id 3),
bet 10, net win 5. -/
def winPayload : InsertSess := ⟨1, 3, 10, 5⟩

/-- The deck dealt in the concrete natural-blackjack round: player gets
A♠ K♠ (a natural 21), dealer gets 5♥ 9♥. -/
def naturalDeck : List Card :=
  [⟨"♠", "A"⟩, ⟨"♠", "K"⟩, ⟨"♥", "5"⟩, ⟨"♥", "9"⟩, ⟨"♦", "2"⟩]

/-- The deal response of the concrete natural-blackjack round at bet 10 and
house edge 50: resolved `player_blackjack`, recorded win 15 (unscaled
`bet * 1.5`), balance 115. -/
def naturalDealResult : DealResult :=
  ⟨[⟨"♠", "A"⟩, ⟨"♠", "K"⟩], [⟨"♥", "5"⟩, ⟨"♥", "9"⟩],
    [⟨"♥", "5"⟩, maskCard], 21, 5, 10, "player_blackjack",
    false, false, false, some 15, 115⟩

/-- The hands sent by the client in the concrete three-card double round. -/
def threeFives : List Card := [⟨"♠", "5"⟩, ⟨"♥", "5"⟩, ⟨"♦", "5"⟩]

/-- The reshuffled deck of the concrete double rounds: suit donor 2♦, value
donor K♦ (the rebuilt hole card), then the drawn card. -/
def doubleDeck4 : List Card := [⟨"♦", "2"⟩, ⟨"♦", "K"⟩, ⟨"♣", "4"⟩]

/-- Action response of the three-card double round: the double is processed,
the bet doubles to 20, the dealer's 20 beats the player's 19, net -20. -/
def threeCardDoubleResult : ActionResult :=
  ⟨[⟨"♠", "5"⟩, ⟨"♥", "5"⟩, ⟨"♦", "5"⟩, ⟨"♣", "4"⟩],
    [⟨"♥", "10"⟩, ⟨"♦", "K"⟩], [⟨"♥", "10"⟩, ⟨"♦", "K"⟩], 19, 20, 20,
    "dealer_wins", some (-20), 80⟩

/-- Action response of the concrete bust-after-double round entered with
balance 10 equal to the bet: the doubled loss of 20 drives the balance to
-10. -/
def bustDoubleResult : ActionResult :=
  ⟨[⟨"♠", "10"⟩, ⟨"♠", "6"⟩, ⟨"♣", "Q"⟩], [⟨"♥", "10"⟩, ⟨"♦", "K"⟩],
    [⟨"♥", "10"⟩, ⟨"♦", "K"⟩], 26, 20, 20, "player_bust", some (-20), -10⟩

/-- A concrete store holding one pending withdrawal of 50 from user 1 whose
remaining balance is 50. -/
def pendingWithdrawalStore : MemStore :=
  ⟨fun u => if u = 1 then some 50 else none,
    fun i => if i = 1 then some ⟨1, 1, -50, "withdrawal", "pending", none⟩
      else none,
    fun _ => none, 2, 1⟩

/-- When the demotion loop exits with a value above 21, its ace counter has
reached 0: every demotable ace has been demoted. -/
theorem adjustForAces_gt21_no_aces (v a : Nat) :
    21 < (adjustForAces v a).1 → (adjustForAces v a).2 = 0 := by
  induction a generalizing v with
  | zero => intro _; rfl
  | succ a ih =>
    intro h
    by_cases hv : 21 < v
    · rw [adjustForAces, if_pos hv] at h ⊢
      exact ih _ h
    · rw [adjustForAces, if_neg hv] at h
      exact absurd h hv

/-- The source raw multiplier if-chain agrees with the spec table. -/
theorem slots_raw_eq_spec (r0 r1 r2 : SlotSymbol) :
    (if r0 = r1 ∧ r1 = r2 then
        if r0 = SlotSymbol.seven then (100 : ℚ)
        else if r0 = SlotSymbol.money then 50
        else if r0 = SlotSymbol.star then 25
        else 10
      else if r0 = r1 ∨ r1 = r2 ∨ r0 = r2 then 2
      else 0) = specSlotsMultiplier r0 r1 r2 := by
  revert r0 r1 r2
  decide

/-- C4: for every slots play that passes validation, the settled net win is
`bet * (multiplier_raw * (100 - houseEdge) / 100) - bet` with the raw
multiplier given by the spec payout table. -/
theorem slots_settled_netWin (balance : ℚ) (game : Game) (bet : ℚ)
    (r0 r1 r2 : SlotSymbol) (res : SlotsResult)
    (h : slotsPlay balance (some game) bet r0 r1 r2 = .ok res) :
    res.win =
      bet * (specSlotsMultiplier r0 r1 r2 * ((100 - game.houseEdge) / 100)) - bet := by
  simp only [slotsPlay] at h
  split at h
  · exact absurd h (by simp)
  · split at h
    · exact absurd h (by simp)
    · split at h
      · exact absurd h (by simp)
      · split at h
        · exact absurd h (by simp)
        · split at h
          · exact absurd h (by simp)
          · rw [Except.ok.injEq] at h
            subst h
            simp only [← slots_raw_eq_spec, mul_assoc]

/-- A roulette play that passes validation settles
`netWin = (win ? bet * (raw * (100 - houseEdge) / 100) : 0) - bet` with the
win flag and raw multiplier given by the handler's if-chain. -/
theorem roulette_netWin_eq (balance : ℚ) (game : Game) (bet : ℚ)
    (betType : String) (betNumber : Option Nat) (result : Nat) (r : RouletteResult)
    (h : roulettePlay balance (some game) bet betType betNumber result = .ok r) :
    r.win =
      (if (rouletteOutcome betType betNumber result).1 then
        bet * ((rouletteOutcome betType betNumber result).2 * ((100 - game.houseEdge) / 100))
      else 0) - bet := by
  simp only [roulettePlay] at h
  split at h
  · exact absurd h (by simp)
  · split at h
    · exact absurd h (by simp)
    · split at h
      · exact absurd h (by simp)
      · split at h
        · exact absurd h (by simp)
        · split at h
          · exact absurd h (by simp)
          · split at h
            · exact absurd h (by simp)
            · split at h
              · exact absurd h (by simp)
              · split at h
                · exact absurd h (by simp)
                · rw [Except.ok.injEq] at h
                  subst h
                  rfl

/-- C5: the roulette win-determination table.  A `number` bet wins iff the
drawn result equals the bet number and then pays raw multiplier 36; every
other bet type pays raw multiplier 2 when it wins; red/black are decided by
the fixed 18-number red set; and a result of 0 never wins a red, black,
even, high, or low bet. -/
theorem roulette_win_determination :
    (∀ (bn : Option Nat) (res : Nat),
      ((rouletteOutcome "number" bn res).1 = true ↔ bn = some res)) ∧
    (∀ (bn : Option Nat) (res : Nat),
      bn = some res → rouletteOutcome "number" bn res = (true, 36)) ∧
    (∀ (bt : String) (bn : Option Nat) (res : Nat),
      bt ∈ (["red", "black", "even", "odd", "high", "low"] : List String) →
      (rouletteOutcome bt bn res).1 = true → (rouletteOutcome bt bn res).2 = 2) ∧
    (∀ (bn : Option Nat) (res : Nat),
      ((rouletteOutcome "red" bn res).1 = true ↔ res ∈ redNumbers)) ∧
    (∀ (bn : Option Nat) (res : Nat),
      ((rouletteOutcome "black" bn res).1 = true ↔ res ∉ redNumbers ∧ res ≠ 0)) ∧
    (∀ (bt : String) (bn : Option Nat),
      bt ∈ (["red", "black", "even", "high", "low"] : List String) →
      (rouletteOutcome bt bn 0).1 = false) := by
  refine ⟨?_, ?_, ?_, ?_, ?_, ?_⟩
  · intro bn res
    by_cases hb : bn = some res <;> simp [rouletteOutcome, hb]
  · intro bn res hb
    subst hb
    simp +decide [rouletteOutcome]
  · intro bt bn res hbt hwin
    simp only [List.mem_cons, List.not_mem_nil, or_false] at hbt
    rcases hbt with rfl | rfl | rfl | rfl | rfl | rfl
    · by_cases h : res ∈ redNumbers
      · simp [rouletteOutcome, h]
      · simp [rouletteOutcome, h] at hwin
    · by_cases h : res ∉ redNumbers ∧ res ≠ 0
      · simp [rouletteOutcome, h]
      · simp [rouletteOutcome, h] at hwin
    · by_cases h : res % 2 = 0 ∧ res ≠ 0
      · simp [rouletteOutcome, h]
      · simp [rouletteOutcome, h] at hwin
    · by_cases h : res % 2 = 1
      · simp [rouletteOutcome, h]
      · simp [rouletteOutcome, h] at hwin
    · by_cases h : 19 ≤ res ∧ res ≤ 36
      · simp [rouletteOutcome, h]
      · simp [rouletteOutcome, h] at hwin
    · by_cases h : 1 ≤ res ∧ res ≤ 18
      · simp [rouletteOutcome, h]
      · simp [rouletteOutcome, h] at hwin
  · intro bn res
    by_cases hr : res ∈ redNumbers <;> simp [rouletteOutcome, hr]
  · intro bn res
    by_cases hr : res ∈ redNumbers <;> by_cases h0 : res = 0 <;>
      simp [rouletteOutcome, hr, h0]
  · intro bt bn hbt
    simp only [List.mem_cons, List.not_mem_nil, or_false] at hbt
    rcases hbt with rfl | rfl | rfl | rfl | rfl <;>
      simp +decide [rouletteOutcome, redNumbers]

/-- C6: `calculateHandValue` gives a natural 21 for ace plus king, 12 for a
pair of aces, and whenever its result exceeds 21 the demotion loop has
already demoted every ace, so no ace counted at 11 remains. -/
theorem calculateHandValue_spec :
    calculateHandValue [⟨"♠", "A"⟩, ⟨"♥", "K"⟩] = 21 ∧
    calculateHandValue [⟨"♠", "A"⟩, ⟨"♥", "A"⟩] = 12 ∧
    ∀ hand : List Card, 21 < calculateHandValue hand → remainingAces hand = 0 :=
  ⟨by decide, by decide, fun _ => adjustForAces_gt21_no_aces _ _⟩

/-- Witness for C6 at a hand that busts: K Q 5 totals 25 with no demotable
ace left. -/
theorem calculateHandValue_spec_witness :
    21 < calculateHandValue [⟨"♠", "K"⟩, ⟨"♥", "Q"⟩, ⟨"♦", "5"⟩] ∧
    remainingAces [⟨"♠", "K"⟩, ⟨"♥", "Q"⟩, ⟨"♦", "5"⟩] = 0 :=
  ⟨by decide, calculateHandValue_spec.2.2 _ (by decide)⟩

set_option maxHeartbeats 1600000 in
/-- C10: every successful deal response shows the dealer hand as the first
dealt dealer card followed by the masked card, and reports the dealer value
computed from that first card alone — regardless of the status, so also on
the immediately-terminal natural resolutions. -/
theorem blackjackDeal_masks_hole_card (balance : ℚ) (game? : Option Game)
    (bet : ℚ) (deck : List Card) (r : DealResult)
    (h : blackjackDeal balance game? bet deck = .ok r) :
    ∃ p1 p2 d1 d2 rest, deck = p1 :: p2 :: d1 :: d2 :: rest ∧
      r.dealerHandShown = [d1, maskCard] ∧
      r.dealerValueShown = calculateHandValue [d1] := by
  simp only [blackjackDeal] at h
  split at h
  · exact absurd h (by simp)
  · split at h
    · exact absurd h (by simp)
    · split at h
      · exact absurd h (by simp)
      · split at h
        · exact absurd h (by simp)
        · split at h
          · exact absurd h (by simp)
          · split at h
            · exact absurd h (by simp)
            · split at h
              · rw [Except.ok.injEq] at h
                subst h
                exact ⟨_, _, _, _, _, rfl, rfl, rfl⟩
              · exact absurd h (by simp)

set_option maxHeartbeats 1000000 in
/-- Witness for C10 at the concrete natural-blackjack round: the response is
terminal (`player_blackjack`) yet still masks the hole card. -/
theorem blackjackDeal_masks_hole_card_witness :
    ∃ p1 p2 d1 d2 rest, naturalDeck = p1 :: p2 :: d1 :: d2 :: rest ∧
      naturalDealResult.dealerHandShown = [d1, maskCard] ∧
      naturalDealResult.dealerValueShown = calculateHandValue [d1] := by
  have h : blackjackDeal 100 (some blackjackGame) 10 naturalDeck =
      .ok naturalDealResult := by
    simp +decide [blackjackDeal, blackjackGame, naturalDeck, naturalDealResult,
      calculateHandValue, handRawValue, handAces, cardPoints, adjustForAces,
      maskCard]
    norm_num
  exact blackjackDeal_masks_hole_card 100 (some blackjackGame) 10 naturalDeck
    naturalDealResult h

/-- C1 (code bug): the two Settlement Coordinator implementations diverge.
On the same one-user store and payload, `MemStorage.createGameSession`
persists the session, applies the +5 balance delta exactly once, and creates
the one derived completed `win` transaction linked to the game — while
`MongoDBStorage.createGameSession` persists the session and leaves the
balance and the transaction collection untouched, so under MongoDB a
GameSession exists without its balance delta. -/
theorem createGameSession_mem_vs_mongo :
    ((memCreateGameSession oneUserStore winPayload).map
        (fun p => (p.1.users 1, p.1.txns 1, p.1.txns 2, p.1.sessions 1))) =
      .ok (some 105, some ⟨1, 1, 5, "win", "completed", some 3⟩, none,
        some ⟨1, 1, 3, 10, 5⟩) ∧
    (mongoCreateGameSession oneUserStore winPayload).1.users 1 = some 100 ∧
    (∀ i, (mongoCreateGameSession oneUserStore winPayload).1.txns i = none) ∧
    (mongoCreateGameSession oneUserStore winPayload).1.sessions 1 =
      some ⟨1, 1, 3, 10, 5⟩ := by
  refine ⟨?_, ?_, fun i => ?_, ?_⟩ <;>
    norm_num [memCreateGameSession, memUpdateUserBalance, memCreateTransaction,
      mongoCreateGameSession, oneUserStore, winPayload, Except.map]

/-- C3 (code bug): replaying the same outcome payload through
`MemStorage.createGameSession` is not rejected and applies the balance delta
again: one call leaves user 1 at 105, the replay leaves them at 110. -/
theorem createGameSession_replay_double_applies :
    ((memCreateGameSession oneUserStore winPayload).map (fun p => p.1.users 1)) =
      .ok (some 105) ∧
    ((memCreateGameSession oneUserStore winPayload).bind
        (fun p => memCreateGameSession p.1 winPayload)).map (fun p => p.1.users 1) =
      .ok (some 110) ∧
    (110 : ℚ) ≠ 105 := by
  refine ⟨?_, ?_, by norm_num⟩ <;>
    norm_num [memCreateGameSession, memUpdateUserBalance, memCreateTransaction,
      Except.bind, oneUserStore, winPayload, Except.map]

/-- Edge scaling multiplies into a positive net (with the game present). -/
theorem bjScale_pos (g : Game) (x : ℚ) (hx : 0 < x) :
    bjScale (some g) x = x * ((100 - g.houseEdge) / 100) := by
  simp [bjScale, hx]

/-- Edge scaling leaves a non-positive net untouched. -/
theorem bjScale_nonpos (game? : Option Game) (x : ℚ) (hx : ¬ 0 < x) :
    bjScale game? x = x := by
  cases game? <;> simp [bjScale, hx]

/-- On a terminal status `bjSettle` records the scaled net and applies it to
the balance. -/
theorem bjSettle_terminal (b : ℚ) (game? : Option Game) (bet : ℚ)
    (ph dh : List Card) (st : String) (raw : ℚ) (hst : st ≠ "in_progress") :
    bjSettle b game? bet ph dh st raw =
      ⟨ph, dh, dh, calculateHandValue ph, calculateHandValue dh, bet, st,
        some (bjScale game? raw), b + bjScale game? raw⟩ := by
  simp [bjSettle, hst]

/-- While in progress `bjSettle` records nothing and keeps the balance. -/
theorem bjSettle_progress (b : ℚ) (game? : Option Game) (bet : ℚ)
    (ph dh : List Card) (raw : ℚ) :
    bjSettle b game? bet ph dh "in_progress" raw =
      ⟨ph, dh, dh.take 1 ++ [maskCard], calculateHandValue ph,
        calculateHandValue (dh.take 1), bet, "in_progress", none, b⟩ := by
  simp [bjSettle]

/-- A successful dealer turn keeps the player hand and bet, ends in one of
the four comparison statuses, and settles the scaled raw net dictated by
the status. -/
theorem bjDealerTurn_ok (b : ℚ) (game? : Option Game) (bet : ℚ)
    (ph dh deck : List Card) (r : ActionResult)
    (h : bjDealerTurn b game? bet ph dh deck = .ok r) :
    r.playerHand = ph ∧ r.bet = bet ∧
    ∃ raw, r.recordedWin = some (bjScale game? raw) ∧
      r.balance = b + bjScale game? raw ∧
      ((r.status = "dealer_bust" ∧ raw = bet) ∨
       (r.status = "dealer_wins" ∧ raw = -bet) ∨
       (r.status = "player_wins" ∧ raw = bet) ∨
       (r.status = "push" ∧ raw = 0)) := by
  unfold bjDealerTurn at h
  split at h
  · exact absurd h (by simp)
  · rw [Except.ok.injEq] at h
    subst h
    unfold bjCompare
    split_ifs with h1 h2 h3
    · rw [bjSettle_terminal _ _ _ _ _ _ _ (by simp)]
      exact ⟨rfl, rfl, bet, rfl, rfl, Or.inl ⟨rfl, rfl⟩⟩
    · rw [bjSettle_terminal _ _ _ _ _ _ _ (by simp)]
      exact ⟨rfl, rfl, -bet, rfl, rfl, Or.inr (Or.inl ⟨rfl, rfl⟩)⟩
    · rw [bjSettle_terminal _ _ _ _ _ _ _ (by simp)]
      exact ⟨rfl, rfl, bet, rfl, rfl, Or.inr (Or.inr (Or.inl ⟨rfl, rfl⟩))⟩
    · rw [bjSettle_terminal _ _ _ _ _ _ _ (by simp)]
      exact ⟨rfl, rfl, 0, rfl, rfl, Or.inr (Or.inr (Or.inr ⟨rfl, rfl⟩))⟩

/-- A successful `hit` keeps the bet; it either stays in progress (nothing
recorded, balance untouched) or busts the player and settles `-bet`. -/
theorem blackjackAction_hit_ok (b : ℚ) (game? : Option Game)
    (ph dh fd : List Card) (bet : ℚ) (r : ActionResult)
    (h : blackjackAction b game? "hit" ph dh fd bet = .ok r) :
    r.bet = bet ∧ r.playerHand.length = ph.length + 1 ∧
    ((r.status = "in_progress" ∧ r.recordedWin = none ∧ r.balance = b) ∨
     (r.status = "player_bust" ∧ r.recordedWin = some (bjScale game? (-bet)) ∧
       r.balance = b + bjScale game? (-bet))) := by
  simp +decide only [blackjackAction, if_true, if_false] at h
  split at h
  · split at h
    · exact absurd h (by simp)
    · split at h
      · rw [bjSettle_terminal _ _ _ _ _ _ _ (by simp), Except.ok.injEq] at h
        subst h
        exact ⟨rfl, by simp, Or.inr ⟨rfl, rfl, rfl⟩⟩
      · rw [bjSettle_progress, Except.ok.injEq] at h
        subst h
        exact ⟨rfl, by simp, Or.inl ⟨rfl, rfl, rfl⟩⟩
  · exact absurd h (by simp)

/-- A successful `stand` keeps the bet and the player hand and settles one
of the four dealer-turn outcomes. -/
theorem blackjackAction_stand_ok (b : ℚ) (game? : Option Game)
    (ph dh fd : List Card) (bet : ℚ) (r : ActionResult)
    (h : blackjackAction b game? "stand" ph dh fd bet = .ok r) :
    r.bet = bet ∧ r.playerHand = ph ∧
    ∃ raw, r.recordedWin = some (bjScale game? raw) ∧
      r.balance = b + bjScale game? raw ∧
      ((r.status = "dealer_bust" ∧ raw = bet) ∨
       (r.status = "dealer_wins" ∧ raw = -bet) ∨
       (r.status = "player_wins" ∧ raw = bet) ∨
       (r.status = "push" ∧ raw = 0)) := by
  simp +decide only [blackjackAction, if_true, if_false] at h
  split at h
  · obtain ⟨hph, hbet, hrest⟩ := bjDealerTurn_ok _ _ _ _ _ _ _ h
    exact ⟨hbet, hph, hrest⟩
  · exact absurd h (by simp)

/-- A successful `double` implies the balance check `balance ≥ bet` passed;
it doubles the bet, draws exactly one card, and either busts (settling the
doubled loss) or plays out the dealer turn at the doubled bet. -/
theorem blackjackAction_double_ok (b : ℚ) (game? : Option Game)
    (ph dh fd : List Card) (bet : ℚ) (r : ActionResult)
    (h : blackjackAction b game? "double" ph dh fd bet = .ok r) :
    ¬ b < bet ∧ r.bet = bet * 2 ∧ r.playerHand.length = ph.length + 1 ∧
    ((r.status = "player_bust" ∧ 21 < calculateHandValue r.playerHand ∧
        r.recordedWin = some (bjScale game? (-(bet * 2))) ∧
        r.balance = b + bjScale game? (-(bet * 2))) ∨
     (¬ 21 < calculateHandValue r.playerHand ∧
       ∃ raw, r.recordedWin = some (bjScale game? raw) ∧
         r.balance = b + bjScale game? raw ∧
         ((r.status = "dealer_bust" ∧ raw = bet * 2) ∨
          (r.status = "dealer_wins" ∧ raw = -(bet * 2)) ∨
          (r.status = "player_wins" ∧ raw = bet * 2) ∨
          (r.status = "push" ∧ raw = 0)))) := by
  simp +decide only [blackjackAction, if_true, if_false] at h
  split at h
  next d0 tail a b1 deck0 =>
    split at h
    next hlt => exact absurd h (by simp)
    next hbal =>
      split at h
      next => exact absurd h (by simp)
      next c deck1 =>
        split at h
        next hbust =>
          rw [bjSettle_terminal _ _ _ _ _ _ _ (by simp), Except.ok.injEq] at h
          subst h
          exact ⟨hbal, rfl, by simp, Or.inl ⟨rfl, by simpa using hbust, rfl, rfl⟩⟩
        next hbust =>
          obtain ⟨hph, hbet, raw, hrec, hb2, hst⟩ := bjDealerTurn_ok _ _ _ _ _ _ _ h
          refine ⟨hbal, hbet, by rw [hph]; simp,
            Or.inr ⟨by rw [hph]; simpa using hbust, raw, hrec, hb2, ?_⟩⟩
          rcases hst with h1 | h1 | h1 | h1
          · exact Or.inl h1
          · exact Or.inr (Or.inl h1)
          · exact Or.inr (Or.inr (Or.inl h1))
          · exact Or.inr (Or.inr (Or.inr h1))
  next => exact absurd h (by simp)

/-- With a well-formed dealer hand and deck, `double` with balance below the
(pre-double) bet is rejected. -/
theorem blackjackAction_double_insufficient (b : ℚ) (game? : Option Game)
    (ph : List Card) (d0 : Card) (dt : List Card) (a bc : Card)
    (deck0 : List Card) (bet : ℚ) (hb : b < bet) :
    blackjackAction b game? "double" ph (d0 :: dt) (a :: bc :: deck0) bet =
      .error "Insufficient balance to double" := by
  simp +decide [blackjackAction, hb]

/-- A successful deal passed its validations and ends in one of the four
deal statuses with the natural-blackjack settlement amounts — recorded
without any house-edge scaling. -/
theorem blackjackDeal_ok_facts (balance : ℚ) (game : Game) (bet : ℚ)
    (deck : List Card) (r : DealResult)
    (h : blackjackDeal balance (some game) bet deck = .ok r) :
    0 < bet ∧ bet ≤ balance ∧ r.bet = bet ∧
    ((r.status = "in_progress" ∧ r.recordedWin = none ∧ r.balance = balance) ∨
     (r.status = "player_blackjack" ∧ r.recordedWin = some (bet * 1.5) ∧
        r.balance = balance + bet * 1.5) ∨
     (r.status = "dealer_blackjack" ∧ r.recordedWin = some (-bet) ∧
        r.balance = balance + -bet) ∨
     (r.status = "push" ∧ r.recordedWin = some 0 ∧
        r.balance = balance + 0)) := by
  simp only [blackjackDeal] at h
  split at h
  · exact absurd h (by simp)
  · split at h
    · exact absurd h (by simp)
    · split at h
      · exact absurd h (by simp)
      · split at h
        · exact absurd h (by simp)
        · split at h
          · exact absurd h (by simp)
          · split at h
            · rw [Except.ok.injEq] at h
              subst h
              rename_i p1 p2 d1 d2 tail
              refine ⟨lt_of_not_le (by assumption),
                le_of_not_lt (by assumption), rfl, ?_⟩
              by_cases hp : calculateHandValue [p1, p2] = 21 <;>
                by_cases hd : calculateHandValue [d1, d2] = 21 <;>
                  simp +decide [hp, hd]
            · exact absurd h (by simp)

/-- A successful slots play passed its validations, settles
`balance + netWin`, and nets the spec-table formula. -/
theorem slotsPlay_ok_facts (balance : ℚ) (game : Game) (bet : ℚ)
    (r0 r1 r2 : SlotSymbol) (res : SlotsResult)
    (h : slotsPlay balance (some game) bet r0 r1 r2 = .ok res) :
    0 < bet ∧ bet ≤ balance ∧ res.bet = bet ∧
    res.balance = balance + res.win ∧
    res.win =
      bet * (specSlotsMultiplier r0 r1 r2 * ((100 - game.houseEdge) / 100)) - bet := by
  simp only [slotsPlay] at h
  split at h
  · exact absurd h (by simp)
  · split at h
    · exact absurd h (by simp)
    · split at h
      · exact absurd h (by simp)
      · split at h
        · exact absurd h (by simp)
        · split at h
          · exact absurd h (by simp)
          · rw [Except.ok.injEq] at h
            subst h
            refine ⟨lt_of_not_le (by assumption),
              le_of_not_lt (by assumption), rfl, rfl, ?_⟩
            simp only [← slots_raw_eq_spec, mul_assoc]

/-- A successful roulette play passed its validations, settles
`balance + netWin`, and nets the outcome-table formula. -/
theorem roulettePlay_ok_facts (balance : ℚ) (game : Game) (bet : ℚ)
    (betType : String) (betNumber : Option Nat) (result : Nat)
    (res : RouletteResult)
    (h : roulettePlay balance (some game) bet betType betNumber result = .ok res) :
    0 < bet ∧ bet ≤ balance ∧ res.bet = bet ∧
    res.balance = balance + res.win ∧
    res.win =
      (if (rouletteOutcome betType betNumber result).1 then
        bet * ((rouletteOutcome betType betNumber result).2 *
          ((100 - game.houseEdge) / 100))
      else 0) - bet := by
  simp only [roulettePlay] at h
  split at h
  · exact absurd h (by simp)
  · split at h
    · exact absurd h (by simp)
    · split at h
      · exact absurd h (by simp)
      · split at h
        · exact absurd h (by simp)
        · split at h
          · exact absurd h (by simp)
          · split at h
            · exact absurd h (by simp)
            · split at h
              · exact absurd h (by simp)
              · split at h
                · exact absurd h (by simp)
                · rw [Except.ok.injEq] at h
                  subst h
                  exact ⟨lt_of_not_le (by assumption),
                    le_of_not_lt (by assumption), rfl, rfl, rfl⟩

/-- The spec slots multiplier table is non-negative. -/
theorem specSlotsMultiplier_nonneg (r0 r1 r2 : SlotSymbol) :
    0 ≤ specSlotsMultiplier r0 r1 r2 := by
  unfold specSlotsMultiplier
  split_ifs <;> norm_num

/-- The roulette raw multiplier is non-negative. -/
theorem rouletteOutcome_snd_nonneg (bt : String) (bn : Option Nat) (n : Nat) :
    0 ≤ (rouletteOutcome bt bn n).2 := by
  unfold rouletteOutcome
  split_ifs <;> norm_num

/-- Characterization of a successful withdrawal: the balance check passed,
a fresh `pending` `withdrawal` transaction with the negated amount was
inserted, and the balance was debited immediately. -/
theorem withdrawHandler_ok (st : MemStore) (u : Nat) (amount : ℚ)
    (st1 : MemStore) (txn : Txn)
    (h : withdrawHandler st u amount = .ok (st1, txn)) :
    ∃ bal, st.users u = some bal ∧ ¬ bal < amount ∧
      txn = ⟨st.currentTransactionId, u, -amount, "withdrawal", "pending", none⟩ ∧
      st1.users u = some (bal + -amount) ∧
      (∀ v, v ≠ u → st1.users v = st.users v) ∧
      st1.txns txn.id = some txn ∧
      (∀ i, i ≠ txn.id → st1.txns i = st.txns i) ∧
      st1.sessions = st.sessions := by
  unfold withdrawHandler at h
  split at h
  · exact absurd h (by simp)
  · rename_i bal hu
    split at h
    · exact absurd h (by simp)
    · simp only [memCreateTransaction, memUpdateUserBalance] at h
      rw [hu] at h
      rw [Except.ok.injEq, Prod.mk.injEq] at h
      obtain ⟨h1, h2⟩ := h
      subst h1
      subst h2
      refine ⟨bal, hu, by assumption, rfl, by simp, ?_, by simp, ?_, rfl⟩
      · intro v hv
        simp [hv]
      · intro i hi
        simp [hi]

/-- Characterization of a successful approve: the status flips to
`completed`, balances and sessions are untouched. -/
theorem approveHandler_ok (st : MemStore) (txnId : Nat) (st1 : MemStore)
    (txn : Txn) (h : approveHandler st txnId = .ok (st1, txn)) :
    ∃ txn0, st.txns txnId = some txn0 ∧
      txn = { txn0 with status := "completed" } ∧
      st1.users = st.users ∧ st1.sessions = st.sessions ∧
      st1.txns txnId = some txn ∧
      (∀ i, i ≠ txnId → st1.txns i = st.txns i) := by
  unfold approveHandler memUpdateTransactionStatus at h
  split at h
  · exact absurd h (by simp)
  · rename_i txn0 h0
    rw [Except.ok.injEq, Prod.mk.injEq] at h
    obtain ⟨h1, h2⟩ := h
    subst h1
    subst h2
    refine ⟨txn0, h0, rfl, rfl, rfl, by simp, ?_⟩
    intro i hi
    simp [hi]

/-- Rejecting a `pending` `withdrawal` refunds `abs(amount)` and flips the
status to `rejected`. -/
theorem rejectHandler_pending_withdrawal (st : MemStore) (txnId : Nat)
    (txn0 : Txn) (bal : ℚ) (h0 : st.txns txnId = some txn0)
    (ht : txn0.txnType = "withdrawal") (hs : txn0.status = "pending")
    (hu : st.users txn0.userId = some bal) :
    ∃ st1 txn, rejectHandler st txnId = .ok (st1, txn) ∧
      txn = { txn0 with status := "rejected" } ∧
      st1.users txn0.userId = some (bal + |txn0.amount|) ∧
      (∀ v, v ≠ txn0.userId → st1.users v = st.users v) ∧
      st1.txns txnId = some { txn0 with status := "rejected" } ∧
      (∀ i, i ≠ txnId → st1.txns i = st.txns i) := by
  unfold rejectHandler
  rw [h0]
  dsimp only
  rw [if_pos (show txn0.txnType = "withdrawal" ∧ txn0.status = "pending" from
    ⟨ht, hs⟩)]
  simp only [memUpdateUserBalance]
  rw [hu]
  simp only [memUpdateTransactionStatus]
  rw [show (({ st with
      users := fun u =>
        if u = txn0.userId then some (bal + |txn0.amount|) else st.users u } :
        MemStore).txns txnId) = st.txns txnId from rfl, h0]
  refine ⟨_, _, rfl, rfl, by simp, ?_, by simp, ?_⟩
  · intro v hv
    simp [hv]
  · intro i hi
    simp [hi]

/-- Rejecting a transaction that is not a pending withdrawal flips the
status without touching any balance. -/
theorem rejectHandler_no_refund (st : MemStore) (txnId : Nat) (txn0 : Txn)
    (h0 : st.txns txnId = some txn0)
    (hcond : ¬(txn0.txnType = "withdrawal" ∧ txn0.status = "pending")) :
    rejectHandler st txnId =
      .ok ({ st with
          txns := fun i =>
            if i = txnId then some { txn0 with status := "rejected" }
            else st.txns i },
        { txn0 with status := "rejected" }) := by
  unfold rejectHandler
  rw [h0]
  simp only [hcond, if_false, memUpdateTransactionStatus]
  rw [h0]

/-- Every successful action names one of the three zod actions. -/
theorem blackjackAction_ok_action_mem (b : ℚ) (game? : Option Game)
    (action : String) (ph dh fd : List Card) (bet : ℚ) (r : ActionResult)
    (h : blackjackAction b game? action ph dh fd bet = .ok r) :
    action = "hit" ∨ action = "stand" ∨ action = "double" := by
  unfold blackjackAction at h
  split at h
  · exact absurd h (by simp)
  · rename_i hmem
    simp at hmem
    tauto

/-- C2 counterexample: at house edge 50 and bet 10, the deal endpoint
resolves a natural player blackjack recording net win 15 — the raw
`bet * 1.5` with no house-edge scaling — although the claim requires
`15 * (100 - 50) / 100 = 7.5`. -/
theorem blackjack_edge_scaling_counterexample :
    ((blackjackDeal 100 (some blackjackGame) 10 naturalDeck).map
        (fun r => (r.status, r.recordedWin))) =
      .ok ("player_blackjack", some 15) ∧
    ¬ (15 : ℚ) = (10 * 1.5) * ((100 - blackjackGame.houseEdge) / 100) := by
  constructor
  · have h : blackjackDeal 100 (some blackjackGame) 10 naturalDeck =
        .ok naturalDealResult := by
      simp +decide [blackjackDeal, blackjackGame, naturalDeck,
        naturalDealResult, calculateHandValue, handRawValue, handAces,
        cardPoints, adjustForAces, maskCard]
      norm_num
    rw [h]
    simp [naturalDealResult, Except.map]
  · norm_num [blackjackGame]

/-- C2 amended: house-edge scaling is applied only at the terminal statuses
of the action endpoint and only to positive raw nets (`+bet` outcomes are
scaled by `(100 - houseEdge) / 100`; losses, busts and pushes are recorded
unscaled), while the natural resolutions of the deal endpoint are recorded
entirely unscaled: player blackjack `bet * 1.5`, dealer blackjack `-bet`,
push `0`. -/
theorem blackjack_edge_scaling_amended :
    (∀ (b : ℚ) (g : Game) (action : String) (ph dh fd : List Card)
        (bet : ℚ) (r : ActionResult), 0 < bet →
      blackjackAction b (some g) action ph dh fd bet = .ok r →
      ((r.status = "dealer_bust" ∨ r.status = "player_wins" →
          r.recordedWin = some (r.bet * ((100 - g.houseEdge) / 100))) ∧
        (r.status = "player_bust" ∨ r.status = "dealer_wins" →
          r.recordedWin = some (-r.bet)) ∧
        (r.status = "push" → r.recordedWin = some 0))) ∧
    (∀ (b : ℚ) (g : Game) (bet : ℚ) (deck : List Card) (r : DealResult),
      blackjackDeal b (some g) bet deck = .ok r →
      ((r.status = "player_blackjack" → r.recordedWin = some (r.bet * 1.5)) ∧
        (r.status = "dealer_blackjack" → r.recordedWin = some (-r.bet)) ∧
        (r.status = "push" → r.recordedWin = some 0))) := by
  constructor
  · intro b g action ph dh fd bet r hbet h
    have hneg : bjScale (some g) (-bet) = -bet :=
      bjScale_nonpos _ _ (by linarith)
    have hneg2 : bjScale (some g) (-(bet * 2)) = -(bet * 2) :=
      bjScale_nonpos _ _ (by linarith)
    have hpos : bjScale (some g) bet = bet * ((100 - g.houseEdge) / 100) :=
      bjScale_pos _ _ hbet
    have hpos2 : bjScale (some g) (bet * 2) =
        (bet * 2) * ((100 - g.houseEdge) / 100) :=
      bjScale_pos _ _ (by linarith)
    have hzero : bjScale (some g) 0 = 0 := bjScale_nonpos _ _ (by norm_num)
    rcases blackjackAction_ok_action_mem _ _ _ _ _ _ _ _ h with rfl | rfl | rfl
    · obtain ⟨hb, _, hcase⟩ := blackjackAction_hit_ok _ _ _ _ _ _ _ h
      rcases hcase with ⟨hst, hrec, _⟩ | ⟨hst, hrec, _⟩ <;>
        refine ⟨fun hx => ?_, fun hx => ?_, fun hx => ?_⟩ <;>
          first
          | (rcases hx with hx | hx <;> simp_all)
          | simp_all
    · obtain ⟨hb, _, raw, hrec, _, hcase⟩ :=
        blackjackAction_stand_ok _ _ _ _ _ _ _ h
      rcases hcase with ⟨hst, rfl⟩ | ⟨hst, rfl⟩ | ⟨hst, rfl⟩ | ⟨hst, rfl⟩ <;>
        refine ⟨fun hx => ?_, fun hx => ?_, fun hx => ?_⟩ <;>
          first
          | (rcases hx with hx | hx <;> simp_all)
          | simp_all
    · obtain ⟨_, hb, _, hcase⟩ := blackjackAction_double_ok _ _ _ _ _ _ _ h
      rcases hcase with ⟨hst, _, hrec, _⟩ |
        ⟨_, raw, hrec, _, hcase2⟩
      · refine ⟨fun hx => ?_, fun hx => ?_, fun hx => ?_⟩ <;>
          first
          | (rcases hx with hx | hx <;> simp_all)
          | simp_all
      · rcases hcase2 with ⟨hst, rfl⟩ | ⟨hst, rfl⟩ | ⟨hst, rfl⟩ | ⟨hst, rfl⟩ <;>
          refine ⟨fun hx => ?_, fun hx => ?_, fun hx => ?_⟩ <;>
            first
            | (rcases hx with hx | hx <;> simp_all)
            | simp_all
  · intro b g bet deck r h
    obtain ⟨_, _, hb, hcase⟩ := blackjackDeal_ok_facts _ _ _ _ _ h
    rcases hcase with ⟨hst, hrec, _⟩ | ⟨hst, hrec, _⟩ | ⟨hst, hrec, _⟩ |
      ⟨hst, hrec, _⟩ <;>
      refine ⟨fun hx => ?_, fun hx => ?_, fun hx => ?_⟩ <;> simp_all

/-- C2 witness: in the concrete three-card double round the action endpoint
settles `dealer_wins` and records exactly `-bet` (the doubled bet, unscaled,
as the amended claim states for negative nets). -/
theorem blackjack_edge_scaling_amended_witness :
    (0 : ℚ) < 10 ∧
    blackjackAction 100 (some blackjackGame) "double" threeFives
      [⟨"♥", "10"⟩] doubleDeck4 10 = .ok threeCardDoubleResult ∧
    threeCardDoubleResult.recordedWin = some (-threeCardDoubleResult.bet) := by
  have hEq : blackjackAction 100 (some blackjackGame) "double" threeFives
      [⟨"♥", "10"⟩] doubleDeck4 10 = .ok threeCardDoubleResult := by
    simp +decide [blackjackAction, blackjackGame, threeFives, doubleDeck4,
      threeCardDoubleResult, bjDealerTurn, dealerDraw, bjCompare, bjSettle,
      bjScale, calculateHandValue, handRawValue, handAces, cardPoints,
      adjustForAces]
    norm_num
  exact ⟨by norm_num, hEq,
    (blackjack_edge_scaling_amended.1 100 blackjackGame "double" threeFives
      [⟨"♥", "10"⟩] doubleDeck4 10 threeCardDoubleResult (by norm_num)
      hEq).2.1 (Or.inr rfl)⟩

/-- C7 counterexample: the action endpoint accepts `double` on a three-card
player hand — it is not restricted to the first action with exactly two
cards — doubling the bet to 20 and playing the round out. -/
theorem double_not_restricted_counterexample :
    ((blackjackAction 100 (some blackjackGame) "double" threeFives
        [⟨"♥", "10"⟩] doubleDeck4 10).map (fun r => (r.status, r.bet))) =
      .ok ("dealer_wins", 20) ∧
    threeFives.length = 3 := by
  constructor
  · have hEq : blackjackAction 100 (some blackjackGame) "double" threeFives
        [⟨"♥", "10"⟩] doubleDeck4 10 = .ok threeCardDoubleResult := by
      simp +decide [blackjackAction, blackjackGame, threeFives, doubleDeck4,
        threeCardDoubleResult, bjDealerTurn, dealerDraw, bjCompare, bjSettle,
        bjScale, calculateHandValue, handRawValue, handAces, cardPoints,
        adjustForAces]
      norm_num
    rw [hEq]
    simp [threeCardDoubleResult, Except.map]
  · rfl

/-- C7 amended: with a well-formed dealer hand and reconstructed deck, the
double branch checks only that the balance covers the current (pre-double)
bet — there is no exactly-two-cards restriction, that rule is only
advertised through the response's `canDouble` flag.  When taken, double
doubles the bet, draws exactly one player card, busts on a total above 21,
and otherwise passes control to the dealer turn, ending in one of its four
outcomes. -/
theorem double_rules_amended :
    (∀ (b : ℚ) (game? : Option Game) (ph : List Card) (d0 : Card)
        (dt : List Card) (a bc : Card) (deck0 : List Card) (bet : ℚ),
      b < bet →
      blackjackAction b game? "double" ph (d0 :: dt) (a :: bc :: deck0) bet =
        .error "Insufficient balance to double") ∧
    (∀ (b : ℚ) (game? : Option Game) (ph dh fd : List Card) (bet : ℚ)
        (r : ActionResult),
      blackjackAction b game? "double" ph dh fd bet = .ok r →
      ¬ b < bet ∧ r.bet = bet * 2 ∧ r.playerHand.length = ph.length + 1 ∧
      (21 < calculateHandValue r.playerHand → r.status = "player_bust") ∧
      (¬ 21 < calculateHandValue r.playerHand →
        r.status = "dealer_bust" ∨ r.status = "dealer_wins" ∨
        r.status = "player_wins" ∨ r.status = "push")) := by
  constructor
  · intro b game? ph d0 dt a bc deck0 bet hb
    exact blackjackAction_double_insufficient _ _ _ _ _ _ _ _ _ hb
  · intro b game? ph dh fd bet r h
    obtain ⟨hbal, hbet, hlen, hcase⟩ := blackjackAction_double_ok _ _ _ _ _ _ _ h
    rcases hcase with ⟨hst, hgt, _, _⟩ | ⟨hngt, _, _, _, hsts⟩
    · exact ⟨hbal, hbet, hlen, fun _ => hst, fun hx => absurd hgt hx⟩
    · refine ⟨hbal, hbet, hlen, fun hx => absurd hx hngt, fun _ => ?_⟩
      rcases hsts with ⟨h1, _⟩ | ⟨h1, _⟩ | ⟨h1, _⟩ | ⟨h1, _⟩
      · exact Or.inl h1
      · exact Or.inr (Or.inl h1)
      · exact Or.inr (Or.inr (Or.inl h1))
      · exact Or.inr (Or.inr (Or.inr h1))

/-- C7 witness: a double with balance 5 against bet 10 is rejected with the
insufficient-balance error. -/
theorem double_rules_amended_witness :
    (5 : ℚ) < 10 ∧
    blackjackAction 5 (some blackjackGame) "double" threeFives
      [⟨"♥", "10"⟩] [⟨"♦", "2"⟩, ⟨"♦", "K"⟩, ⟨"♣", "4"⟩] 10 =
      .error "Insufficient balance to double" :=
  ⟨by norm_num,
    double_rules_amended.1 5 (some blackjackGame) threeFives ⟨"♥", "10"⟩ []
      ⟨"♦", "2"⟩ ⟨"♦", "K"⟩ [⟨"♣", "4"⟩] 10 (by norm_num)⟩

/-- C9 counterexample: a blackjack round entered with balance 10 sufficient
for the bet 10, in which the player doubles and busts, settles -20 and
leaves the balance negative at -10. -/
theorem balance_goes_negative_counterexample :
    ((blackjackAction 10 (some blackjackGame) "double"
        [⟨"♠", "10"⟩, ⟨"♠", "6"⟩] [⟨"♥", "10"⟩]
        [⟨"♦", "2"⟩, ⟨"♦", "K"⟩, ⟨"♣", "Q"⟩] 10).map (fun r => r.balance)) =
      .ok (-10) ∧
    (10 : ℚ) ≤ 10 ∧ (-10 : ℚ) < 0 := by
  refine ⟨?_, le_refl 10, by norm_num⟩
  have hEq : blackjackAction 10 (some blackjackGame) "double"
      [⟨"♠", "10"⟩, ⟨"♠", "6"⟩] [⟨"♥", "10"⟩]
      [⟨"♦", "2"⟩, ⟨"♦", "K"⟩, ⟨"♣", "Q"⟩] 10 = .ok bustDoubleResult := by
    simp +decide [blackjackAction, blackjackGame, bustDoubleResult, bjSettle,
      bjScale, calculateHandValue, handRawValue, handAces, cardPoints,
      adjustForAces]
    norm_num
  rw [hEq]
  simp [bustDoubleResult, Except.map]

/-- C9 amended: starting from a non-negative balance, every game or
withdrawal request that passes its handler's own balance validation leaves
the balance non-negative — except a blackjack double, which validates the
balance only against the pre-double bet and can therefore debit up to twice
the bet, leaving the balance as low as `-bet` but no lower. -/
theorem balance_nonneg_amended :
    (∀ (b : ℚ) (g : Game) (bet : ℚ) (r0 r1 r2 : SlotSymbol)
        (res : SlotsResult), 0 ≤ b → g.houseEdge ≤ 100 →
      slotsPlay b (some g) bet r0 r1 r2 = .ok res → 0 ≤ res.balance) ∧
    (∀ (b : ℚ) (g : Game) (bet : ℚ) (bt : String) (bn : Option Nat) (n : Nat)
        (res : RouletteResult), 0 ≤ b → g.houseEdge ≤ 100 →
      roulettePlay b (some g) bet bt bn n = .ok res → 0 ≤ res.balance) ∧
    (∀ (b : ℚ) (g : Game) (bet : ℚ) (deck : List Card) (r : DealResult),
      0 ≤ b → blackjackDeal b (some g) bet deck = .ok r → 0 ≤ r.balance) ∧
    (∀ (b : ℚ) (g : Game) (act : String) (ph dh fd : List Card) (bet : ℚ)
        (r : ActionResult), act = "hit" ∨ act = "stand" →
      0 < bet → bet ≤ b → g.houseEdge ≤ 100 →
      blackjackAction b (some g) act ph dh fd bet = .ok r → 0 ≤ r.balance) ∧
    (∀ (b : ℚ) (g : Game) (ph dh fd : List Card) (bet : ℚ)
        (r : ActionResult), 0 < bet → bet ≤ b → g.houseEdge ≤ 100 →
      blackjackAction b (some g) "double" ph dh fd bet = .ok r →
      -bet ≤ r.balance) ∧
    (∀ (st : MemStore) (u : Nat) (amount : ℚ) (st1 : MemStore) (txn : Txn)
        (bal : ℚ), st.users u = some bal →
      withdrawHandler st u amount = .ok (st1, txn) →
      ∃ b2, st1.users u = some b2 ∧ 0 ≤ b2) := by
  refine ⟨?_, ?_, ?_, ?_, ?_, ?_⟩
  · intro b g bet r0 r1 r2 res hb hedge h
    obtain ⟨hbet, hle, _, hbal, hwin⟩ := slotsPlay_ok_facts _ _ _ _ _ _ _ h
    have hm : 0 ≤ specSlotsMultiplier r0 r1 r2 := specSlotsMultiplier_nonneg _ _ _
    have hhem : 0 ≤ (100 - g.houseEdge) / 100 := by
      apply div_nonneg <;> linarith
    have : 0 ≤ bet * (specSlotsMultiplier r0 r1 r2 * ((100 - g.houseEdge) / 100)) :=
      mul_nonneg hbet.le (mul_nonneg hm hhem)
    rw [hbal, hwin]
    linarith
  · intro b g bet bt bn n res hb hedge h
    obtain ⟨hbet, hle, _, hbal, hwin⟩ := roulettePlay_ok_facts _ _ _ _ _ _ _ h
    have hm : 0 ≤ (rouletteOutcome bt bn n).2 := rouletteOutcome_snd_nonneg _ _ _
    have hhem : 0 ≤ (100 - g.houseEdge) / 100 := by
      apply div_nonneg <;> linarith
    have hx : 0 ≤ (if (rouletteOutcome bt bn n).1 then
        bet * ((rouletteOutcome bt bn n).2 * ((100 - g.houseEdge) / 100))
      else 0) := by
      split
      · exact mul_nonneg hbet.le (mul_nonneg hm hhem)
      · exact le_refl 0
    rw [hbal, hwin]
    linarith
  · intro b g bet deck r hb h
    obtain ⟨hbet, hle, _, hcase⟩ := blackjackDeal_ok_facts _ _ _ _ _ h
    rcases hcase with ⟨_, _, hbal⟩ | ⟨_, _, hbal⟩ | ⟨_, _, hbal⟩ | ⟨_, _, hbal⟩ <;>
      rw [hbal] <;> linarith
  · intro b g act ph dh fd bet r hact hbet hle hedge h
    have hhem : 0 ≤ (100 - g.houseEdge) / 100 := by
      apply div_nonneg <;> linarith
    rcases hact with rfl | rfl
    · obtain ⟨_, _, hcase⟩ := blackjackAction_hit_ok _ _ _ _ _ _ _ h
      rcases hcase with ⟨_, _, hbal⟩ | ⟨_, _, hbal⟩
      · rw [hbal]; linarith
      · rw [hbal, bjScale_nonpos _ _ (by linarith)]; linarith
    · obtain ⟨_, _, raw, _, hbal, hcase⟩ := blackjackAction_stand_ok _ _ _ _ _ _ _ h
      rcases hcase with ⟨_, rfl⟩ | ⟨_, rfl⟩ | ⟨_, rfl⟩ | ⟨_, rfl⟩
      · rw [hbal, bjScale_pos _ _ hbet]
        have h2 := mul_nonneg hbet.le hhem
        linarith
      · rw [hbal, bjScale_nonpos _ _ (by linarith)]; linarith
      · rw [hbal, bjScale_pos _ _ hbet]
        have h2 := mul_nonneg hbet.le hhem
        linarith
      · rw [hbal, bjScale_nonpos _ _ (by norm_num)]; linarith
  · intro b g ph dh fd bet r hbet hle hedge h
    have hhem : 0 ≤ (100 - g.houseEdge) / 100 := by
      apply div_nonneg <;> linarith
    obtain ⟨_, _, _, hcase⟩ := blackjackAction_double_ok _ _ _ _ _ _ _ h
    rcases hcase with ⟨_, _, _, hbal⟩ | ⟨_, raw, _, hbal, hcase2⟩
    · rw [hbal, bjScale_nonpos _ _ (by linarith)]; linarith
    · rcases hcase2 with ⟨_, rfl⟩ | ⟨_, rfl⟩ | ⟨_, rfl⟩ | ⟨_, rfl⟩
      · rw [hbal, bjScale_pos _ _ (by linarith)]
        have h2 : (0 : ℚ) ≤ bet * 2 * ((100 - g.houseEdge) / 100) :=
          mul_nonneg (by linarith) hhem
        linarith
      · rw [hbal, bjScale_nonpos _ _ (by linarith)]; linarith
      · rw [hbal, bjScale_pos _ _ (by linarith)]
        have h2 : (0 : ℚ) ≤ bet * 2 * ((100 - g.houseEdge) / 100) :=
          mul_nonneg (by linarith) hhem
        linarith
      · rw [hbal, bjScale_nonpos _ _ (by norm_num)]; linarith
  · intro st u amount st1 txn bal hu h
    obtain ⟨bal2, hu2, hlt, _, hbal1, _⟩ := withdrawHandler_ok _ _ _ _ _ h
    exact ⟨bal2 + -amount, hbal1, by linarith [not_lt.mp hlt]⟩

/-- C9 witness: the bust-after-double round entered at balance 10 = bet hits
the amended bound exactly: the balance lands at -10, not below `-bet`. -/
theorem balance_nonneg_amended_witness :
    (0 : ℚ) < 10 ∧ (10 : ℚ) ≤ 10 ∧ blackjackGame.houseEdge ≤ 100 ∧
    blackjackAction 10 (some blackjackGame) "double"
      [⟨"♠", "10"⟩, ⟨"♠", "6"⟩] [⟨"♥", "10"⟩]
      [⟨"♦", "2"⟩, ⟨"♦", "K"⟩, ⟨"♣", "Q"⟩] 10 = .ok bustDoubleResult ∧
    -10 ≤ bustDoubleResult.balance := by
  have hEq : blackjackAction 10 (some blackjackGame) "double"
      [⟨"♠", "10"⟩, ⟨"♠", "6"⟩] [⟨"♥", "10"⟩]
      [⟨"♦", "2"⟩, ⟨"♦", "K"⟩, ⟨"♣", "Q"⟩] 10 = .ok bustDoubleResult := by
    simp +decide [blackjackAction, blackjackGame, bustDoubleResult, bjSettle,
      bjScale, calculateHandValue, handRawValue, handAces, cardPoints,
      adjustForAces]
    norm_num
  exact ⟨by norm_num, le_refl 10, by norm_num [blackjackGame], hEq,
    balance_nonneg_amended.2.2.2.2.1 10 blackjackGame _ _ _ 10 bustDoubleResult
      (by norm_num) (le_refl 10) (by norm_num [blackjackGame]) hEq⟩

/-- C4 witness: the spec §8 example — two matching cherries at house edge
50 and bet 10 settle net 0. -/
theorem slots_settled_netWin_witness :
    slotsPlay 100 (some slotsGame) 10 SlotSymbol.cherry SlotSymbol.cherry
      SlotSymbol.star =
      .ok ⟨(SlotSymbol.cherry, SlotSymbol.cherry, SlotSymbol.star), 10, 0, 1, 100⟩ ∧
    (⟨(SlotSymbol.cherry, SlotSymbol.cherry, SlotSymbol.star), 10, 0, 1, 100⟩ :
        SlotsResult).win =
      10 * (specSlotsMultiplier SlotSymbol.cherry SlotSymbol.cherry
        SlotSymbol.star * ((100 - slotsGame.houseEdge) / 100)) - 10 := by
  have hEq : slotsPlay 100 (some slotsGame) 10 SlotSymbol.cherry
      SlotSymbol.cherry SlotSymbol.star =
      .ok ⟨(SlotSymbol.cherry, SlotSymbol.cherry, SlotSymbol.star), 10, 0, 1, 100⟩ := by
    simp +decide [slotsPlay, slotsGame]
    norm_num
  exact ⟨hEq, slots_settled_netWin 100 slotsGame 10 _ _ _ _ hEq⟩

/-- C5 witness: a red bet on the red number 3 wins and pays raw
multiplier 2. -/
theorem roulette_win_determination_witness :
    (("red" : String) ∈
      (["red", "black", "even", "odd", "high", "low"] : List String)) ∧
    (rouletteOutcome "red" none 3).1 = true ∧
    (rouletteOutcome "red" none 3).2 = 2 :=
  ⟨by decide, by decide,
    roulette_win_determination.2.2.1 "red" none 3 (by decide) (by decide)⟩

/-- C8: the withdrawal lifecycle.  A withdrawal within balance immediately
debits and records a `pending` `withdrawal` transaction; approve flips the
status with no balance change; reject of a pending withdrawal refunds
`abs(amount)` and marks it `rejected`; reject of anything that is not a
pending withdrawal (including an already-rejected one) changes no balance,
so a repeated or mistyped reject never double-credits. -/
theorem withdrawal_flow_spec :
    (∀ (st : MemStore) (u : Nat) (amount bal : ℚ) (st1 : MemStore) (txn : Txn),
      st.users u = some bal → 0 < amount → amount ≤ bal →
      withdrawHandler st u amount = .ok (st1, txn) →
      st1.users u = some (bal - amount) ∧ txn.txnType = "withdrawal" ∧
      txn.status = "pending" ∧ st1.txns txn.id = some txn) ∧
    (∀ (st : MemStore) (txnId : Nat) (st1 : MemStore) (txn : Txn),
      approveHandler st txnId = .ok (st1, txn) →
      txn.status = "completed" ∧ st1.users = st.users) ∧
    (∀ (st : MemStore) (txnId : Nat) (txn0 : Txn) (bal : ℚ),
      st.txns txnId = some txn0 → txn0.txnType = "withdrawal" →
      txn0.status = "pending" → st.users txn0.userId = some bal →
      ∃ st1 txn, rejectHandler st txnId = .ok (st1, txn) ∧
        txn.status = "rejected" ∧
        st1.users txn0.userId = some (bal + |txn0.amount|) ∧
        st1.txns txnId = some { txn0 with status := "rejected" }) ∧
    (∀ (st : MemStore) (txnId : Nat) (txn0 : Txn),
      st.txns txnId = some txn0 →
      ¬(txn0.txnType = "withdrawal" ∧ txn0.status = "pending") →
      ∃ st1 txn, rejectHandler st txnId = .ok (st1, txn) ∧
        st1.users = st.users) ∧
    (∀ (st : MemStore) (txnId : Nat) (txn0 : Txn) (bal : ℚ) (st1 : MemStore)
        (txn1 : Txn),
      st.txns txnId = some txn0 → txn0.txnType = "withdrawal" →
      txn0.status = "pending" → st.users txn0.userId = some bal →
      rejectHandler st txnId = .ok (st1, txn1) →
      ∃ st2 txn2, rejectHandler st1 txnId = .ok (st2, txn2) ∧
        st2.users = st1.users) := by
  refine ⟨?_, ?_, ?_, ?_, ?_⟩
  · intro st u amount bal st1 txn hu hpos hle h
    obtain ⟨bal2, hu2, hlt, htxn, hbal1, _, htx, _, _⟩ :=
      withdrawHandler_ok _ _ _ _ _ h
    obtain rfl : bal2 = bal := Option.some.inj (hu2.symm.trans hu)
    refine ⟨?_, by rw [htxn], by rw [htxn], htx⟩
    rw [hbal1, sub_eq_add_neg]
  · intro st txnId st1 txn h
    obtain ⟨txn0, _, htxn, husers, _, _, _⟩ := approveHandler_ok _ _ _ _ h
    exact ⟨by rw [htxn], husers⟩
  · intro st txnId txn0 bal h0 ht hs hu
    obtain ⟨st1, txn, hEq, htxn, hb, _, htx, _⟩ :=
      rejectHandler_pending_withdrawal _ _ _ _ h0 ht hs hu
    exact ⟨st1, txn, hEq, by rw [htxn], hb, htx⟩
  · intro st txnId txn0 h0 hcond
    exact ⟨_, _, rejectHandler_no_refund _ _ _ h0 hcond, rfl⟩
  · intro st txnId txn0 bal st1 txn1 h0 ht hs hu h
    obtain ⟨st1', txn', hEq, _, _, _, htx1, _⟩ :=
      rejectHandler_pending_withdrawal _ _ _ _ h0 ht hs hu
    rw [hEq, Except.ok.injEq, Prod.mk.injEq] at h
    obtain ⟨rfl, rfl⟩ := h
    exact ⟨_, _,
      rejectHandler_no_refund _ _ _ htx1 (by simp), rfl⟩

/-- C8 witness: rejecting the concrete pending withdrawal refunds the
absolute amount and flips the status. -/
theorem withdrawal_flow_spec_witness :
    pendingWithdrawalStore.txns 1 =
      some ⟨1, 1, -50, "withdrawal", "pending", none⟩ ∧
    ∃ st1 txn, rejectHandler pendingWithdrawalStore 1 = .ok (st1, txn) ∧
      txn.status = "rejected" ∧
      st1.users 1 = some (50 + |(-50 : ℚ)|) ∧
      st1.txns 1 = some ⟨1, 1, -50, "withdrawal", "rejected", none⟩ :=
  ⟨rfl, withdrawal_flow_spec.2.2.1 pendingWithdrawalStore 1
    ⟨1, 1, -50, "withdrawal", "pending", none⟩ 50 rfl rfl rfl rfl⟩
